import Mathlib

/-!
Verification of the Telegram-Agent repository's incremental ingestion core.

The Python sources are shallowly embedded: pure functions become Lean
functions, the JSON files backing the Checkpoint Store and the Publication
Store become explicit state values, and library boundaries (the chat
connector, the HTTP fetch plus HTML selector cascade, the LLM service, the
regular-expression URL extractor) are modeled as explicit inputs describing
the outcome of each external call.  Machine-level details that no claim
depends on (exact ISO-8601 character layout, ODT rendering) are modeled by
their stdlib contract, as documented on each definition.
-/

namespace TelegramAgent

/-! ## Decimal printing and parsing

Models the stdlib rendering of integers inside serialized timestamps
(string formatting in Python) together with the parser that inverts it.
Defined by structural recursion on an explicit fuel argument so that every
concrete evaluation reduces inside the kernel. -/

/-- Character for a single decimal digit. -/
def digitChar (d : Nat) : Char := Char.ofNat (48 + d)

/-- Inverse of digitChar on decimal digit characters; none elsewhere. -/
def charDigit (c : Char) : Option Nat :=
  if 48 ≤ c.toNat ∧ c.toNat ≤ 57 then some (c.toNat - 48) else none

/-- Little-endian decimal digits of a natural number, with fuel. -/
def natDigits : Nat → Nat → List Nat
  | 0, _ => []
  | _ + 1, 0 => []
  | fuel + 1, n + 1 => ((n + 1) % 10) :: natDigits fuel ((n + 1) / 10)

/-- Decimal rendering of a natural number, most significant digit first. -/
def printNatChars (n : Nat) : List Char :=
  if n = 0 then ['0'] else ((natDigits n n).map digitChar).reverse

/-- Value of a little-endian digit list. -/
def digitsVal : List Nat → Nat
  | [] => 0
  | d :: ds => d + 10 * digitsVal ds

/-- Parse every character as a decimal digit, failing on any non-digit. -/
def charsToDigits : List Char → Option (List Nat)
  | [] => some []
  | c :: cs =>
    match charDigit c, charsToDigits cs with
    | some d, some ds => some (d :: ds)
    | _, _ => none

/-- Parse a nonempty all-digit character list as a natural number. -/
def parseNatChars : List Char → Option Nat
  | [] => none
  | c :: cs => (charsToDigits (c :: cs)).map (fun ds => digitsVal ds.reverse)

/-- Decimal rendering of an integer, with a leading minus sign if negative. -/
def printIntChars (i : Int) : List Char :=
  if i < 0 then '-' :: printNatChars i.natAbs else printNatChars i.natAbs

/-- Parse an optionally minus-signed decimal integer. -/
def parseIntChars (cs : List Char) : Option Int :=
  match cs with
  | [] => none
  | c :: rest =>
    if c = '-' then (parseNatChars rest).map (fun n => -(n : Int))
    else (parseNatChars (c :: rest)).map (fun n => (n : Int))

/-! ## Python datetime model

Models the stdlib datetime objects the repository manipulates.  A value
carries the naive wall-clock reading (in abstract microsecond units) and
the utcoffset of its tzinfo in minutes, with none for a naive datetime.
Aware datetimes compare by UTC instant, exactly as in the stdlib. -/

/-- Python datetime: wall-clock reading plus optional utcoffset. -/
structure Datetime where
  wall : Int
  tz : Option Int
deriving DecidableEq

/-- UTC instant of a datetime, reading a naive value as UTC. -/
def Datetime.utcInstant (d : Datetime) : Int := d.wall - 60000000 * d.tz.getD 0

/-- Models the pattern if t.tzinfo is None: t = t.replace(tzinfo=timezone.utc). -/
def ensureUtc (d : Datetime) : Datetime :=
  match d.tz with
  | none => { d with tz := some 0 }
  | some _ => d

/-- Strict comparison of aware datetimes, by UTC instant as in the stdlib. -/
def dtGt (a b : Datetime) : Bool := decide (b.utcInstant < a.utcInstant)

/-! ## ISO-8601 timestamp serialization

Models datetime.isoformat and datetime.fromisoformat by their contract:
isoformat renders the wall-clock fields and the utcoffset injectively into
a string (never empty, offset part introduced by a separator character that
cannot occur in a rendered number), and fromisoformat inverts that
rendering exactly, failing with ValueError (here: none) on any string that
is not such a rendering.  The exact ISO character layout (calendar field
splitting) is irrelevant to every claim and is abstracted into the decimal
rendering of the two components. -/

/-- Character rendering of a datetime, offset part separated by a T. -/
def isoChars (d : Datetime) : List Char :=
  match d.tz with
  | none => printIntChars d.wall
  | some o => printIntChars d.wall ++ 'T' :: printIntChars o

/-- Models datetime.isoformat. -/
def isoformat (d : Datetime) : String := String.mk (isoChars d)

/-- Split a character list at the first T separator, if any. -/
def breakAtSep : List Char → List Char × Option (List Char)
  | [] => ([], none)
  | c :: cs =>
    if c = 'T' then ([], some cs)
    else
      let p := breakAtSep cs
      (c :: p.1, p.2)

/-- Models datetime.fromisoformat; none stands for a raised ValueError. -/
def fromisoformat (s : String) : Option Datetime :=
  let p := breakAtSep s.toList
  match p.2 with
  | none => (parseIntChars p.1).map (fun w => { wall := w, tz := none })
  | some ocs =>
    match parseIntChars p.1, parseIntChars ocs with
    | some w, some o => some { wall := w, tz := some o }
    | _, _ => none

/-! ## JSON object model

The checkpoint file holds one JSON object mapping chat-key strings to
timestamp strings.  Python dicts preserve insertion order; item assignment
replaces in place or appends at the end, which the association-list update
below reproduces. -/

/-- Lookup, modeling dict.get(key) returning None when absent. -/
def dictGet (d : List (String × String)) (k : String) : Option String :=
  match d with
  | [] => none
  | (k', v) :: rest => if k' = k then some v else dictGet rest k

/-- Item assignment data[key] = value on an insertion-ordered dict. -/
def dictSet (d : List (String × String)) (k : String) (v : String) : List (String × String) :=
  match d with
  | [] => [(k, v)]
  | (k', v') :: rest => if k' = k then (k, v) :: rest else (k', v') :: dictSet rest k v

/-! ## Checkpoint Store: src/timestamp_tracker.py

The TimestampTracker instance state is the backing file data/last_check.json,
modeled explicitly: the file can be missing, unreadable (open or read
raises), hold invalid JSON (json.load raises), or hold a JSON object.
Saving is modeled as replacing the file content; the except branch of
save_timestamp_data only logs and is not observable in the stored data. -/

/-- State of the data/last_check.json backing file. -/
inductive TrackerFile where
  | missing
  | unreadable
  | invalidJson
  | content (data : List (String × String))
deriving DecidableEq

/-- Models TimestampTracker.load_timestamp_data: any failure degrades to
an empty dict (lines 35-43 of timestamp_tracker.py). -/
def load_timestamp_data : TrackerFile → List (String × String)
  | .content d => d
  | _ => []

/-- Models TimestampTracker.save_timestamp_data writing the dict back. -/
def save_timestamp_data (d : List (String × String)) : TrackerFile := .content d

/-- Python value passed as chat_id: the declared type is Optional int but
the enhanced agent passes strings, so all three shapes are modeled. -/
inductive PyChatId where
  | none
  | int (n : Int)
  | str (s : String)
deriving DecidableEq

/-- Python truthiness of a chat_id value. -/
def PyChatId.truthy : PyChatId → Bool
  | .none => false
  | .int n => n != 0
  | .str s => s != ""

/-- Models str(chat_id). -/
def PyChatId.pyStr : PyChatId → String
  | .none => "None"
  | .int n => String.mk (printIntChars n)
  | .str s => s

/-- Models the expression str(chat_id) if chat_id else "global" used by
every tracker operation (lines 57, 85 of timestamp_tracker.py). -/
def trackerKey (c : PyChatId) : String := if c.truthy then c.pyStr else "global"

/-- Models TimestampTracker.get_last_check_timestamp (lines 45-66): loads
the dict, looks the key up, treats a falsy (empty) entry as absent, and
turns a fromisoformat ValueError into None. -/
def get_last_check_timestamp (file : TrackerFile) (chat_id : PyChatId) : Option Datetime :=
  let data := load_timestamp_data file
  let key := trackerKey chat_id
  match dictGet data key with
  | some ts => if ts = "" then none else fromisoformat ts
  | none => none

/-- Models TimestampTracker.update_last_check_timestamp (lines 68-89):
loads the dict, defaults a missing timestamp to datetime.now(timezone.utc)
(the nowWall argument), coerces a naive value to UTC, writes the isoformat
string under the key and saves. -/
def update_last_check_timestamp (file : TrackerFile) (chat_id : PyChatId)
    (timestamp : Option Datetime) (nowWall : Int) : TrackerFile :=
  let data := load_timestamp_data file
  let t := timestamp.getD { wall := nowWall, tz := some 0 }
  let t := ensureUtc t
  let key := trackerKey chat_id
  save_timestamp_data (dictSet data key (isoformat t))

/-- Models TimestampTracker.should_process_message (lines 108-132): true
when no checkpoint exists, else a strict greater-than comparison after
normalizing both datetimes to timezone-aware. -/
def should_process_message (file : TrackerFile) (message_date : Datetime)
    (chat_id : PyChatId) : Bool :=
  match get_last_check_timestamp file chat_id with
  | none => true
  | some last_check => dtGt (ensureUtc message_date) (ensureUtc last_check)

/-! ## Python string helpers shared by both agents -/

/-- Whitespace test used by str.strip (restricted to the ASCII whitespace
the messages in scope contain). -/
def isPySpace (c : Char) : Bool := c = ' ' || c = '\t' || c = '\n' || c = '\r'

/-- Models str.strip(). -/
def pyStrip (s : String) : String :=
  String.mk (((s.toList.dropWhile isPySpace).reverse.dropWhile isPySpace).reverse)

/-- Models the slice s[:n]. -/
def pyTake (s : String) (n : Nat) : String := String.mk (s.toList.take n)

/-- Models str.lower(). -/
def pyLower (s : String) : String := String.mk (s.toList.map Char.toLower)

/-- Models the expression x or default for an optional, possibly empty
string: the default replaces both None and the empty string. -/
def pyOrOpt (o : Option String) (default : String) : String :=
  match o with
  | none => default
  | some s => if s = "" then default else s

/-- Summary truncation rule text[:100] + "..." if len(text) > 100 else
text, shared by every classifier fallback in the sources. -/
def truncatedSummary (text : String) : String :=
  if 100 < text.length then pyTake text 100 ++ "..." else text

/-! ## LLM service boundary

The generative service is reached through requests/json; the outcome of
one call is modeled as either an empty reply (network or HTTP error, the
source converts every such failure into the empty string), a reply that
json.loads rejects, or a parsed JSON payload. -/

/-- Outcome of one service call followed by json.loads. -/
inductive LLMReply (α : Type) where
  | empty
  | notJson
  | json (payload : α)
deriving DecidableEq

/-- Fields of the JSON object requested from the article-enhancement
prompt; every key may be absent from the reply. -/
structure EnhancedArticle where
  title : Option String := none
  summary : Option String := none
  author : Option String := none
  category : Option String := none
  key_points : Option (List String) := none
  confidence : Option String := none
  article_type : Option String := none
deriving DecidableEq

/-- MessageAnalysisRecord: the dict produced for one classified message.
Optional fields model dict keys that some producing branches omit. -/
structure AnalysisData where
  summary : String
  sentiment : String
  topics : List String
  importance : String
  message_type : Option String := none
  key_words : Option (List String) := none
  enhanced_by_llm : Bool
  llm_provider : Option String := none
  original_message : String
  sender : String
  analyzed_at : Option String := none
  message_date : Option String := none
  chat_id : Option String := none
deriving DecidableEq

namespace SimpleLLM

/-- Models SimpleLLMProcessor.enhance_article_extraction applied to a
basic record of type α with a merge function for the parsed payload
(lines 149-224 of simple_llm_processor.py): unavailable service, empty
reply or malformed JSON all fall back to the basic record with the
enhanced flag cleared. -/
def enhance_article_extraction {α : Type} (available : Bool)
    (reply : LLMReply EnhancedArticle) (merge : EnhancedArticle → α)
    (setNotEnhanced : α) : α :=
  if available then
    match reply with
    | .json e => merge e
    | _ => setNotEnhanced
  else setNotEnhanced

/-- Models SimpleLLMProcessor.summarize_message (lines 226-293 of
simple_llm_processor.py).  The first branch (service unavailable or blank
text) returns a reduced dict without the message_type and key_words keys;
a successful JSON reply is returned with bookkeeping fields overwritten;
an empty or malformed reply falls back to the deterministic analysis with
message_type other. -/
def summarize_message (available : Bool) (provider : String)
    (reply : LLMReply AnalysisData) (message_text sender_name : String) : AnalysisData :=
  if ¬ available ∨ pyStrip message_text = "" then
    { summary := truncatedSummary message_text
      sentiment := "neutral"
      topics := []
      importance := "medium"
      enhanced_by_llm := false
      original_message := message_text
      sender := sender_name }
  else
    match reply with
    | .json a =>
      { a with enhanced_by_llm := true
               llm_provider := some provider
               original_message := message_text
               sender := sender_name }
    | _ =>
      { summary := truncatedSummary message_text
        sentiment := "neutral"
        topics := []
        importance := "medium"
        message_type := some "other"
        key_words := some []
        enhanced_by_llm := false
        original_message := message_text
        sender := sender_name }

end SimpleLLM

/-! ## Enhanced agent: src/agent_enhanced.py -/

namespace Enhanced

/-- ArticleRecord: the dict built by extract_article_content, possibly
widened by LLM enhancement and by the sender key the URL loop adds. -/
structure ArticleData where
  url : String
  title : String
  summary : String
  author : String
  image : Option String
  extracted_at : String
  extraction_method : String
  enhanced_by_llm : Bool
  llm_provider : Option String := none
  category : Option String := none
  key_points : Option (List String) := none
  confidence : Option String := none
  article_type : Option String := none
  sender : Option String := none
deriving DecidableEq

/-- Net result of the BeautifulSoup selector cascade of
extract_article_content, modeled at the library boundary: for each field,
the first match the cascade would keep, or none.  The title loop only
accepts non-empty text; description, author and image may be the empty
string, which the record constructors treat as absent via the or
defaults. -/
structure PageMeta where
  title : Option String := none
  description : Option String := none
  author : Option String := none
  image : Option String := none
deriving DecidableEq

/-- Outcome of requests.get plus parsing for one URL: a parsed page or a
raised exception (timeout, HTTP error status, parse failure) with its
message. -/
inductive FetchResult where
  | ok (meta : PageMeta)
  | exn (msg : String)
deriving DecidableEq

/-- Message as delivered by the chat connector: display name already
resolved, text possibly absent, sent timestamp. -/
structure Message where
  sender : String
  text : Option String
  date : Datetime
deriving DecidableEq

/-- Publication Store entry: an article record or a message analysis. -/
inductive PubEntry where
  | article (a : ArticleData)
  | analysis (a : AnalysisData)
deriving DecidableEq

/-- State of the publications/news_database.json backing file. -/
inductive PubFile where
  | missing
  | corrupt
  | content (entries : List PubEntry)
deriving DecidableEq

/-- External-world inputs of one processing pass: the URL regular
expression of extract_urls_from_text modeled as the function it denotes,
the fetch outcome per URL, the LLM configuration and its replies, whether
the publications write raises, and the current wall clock. -/
structure Env where
  urls : String → List String
  fetch : String → FetchResult
  llmAvailable : Bool
  provider : String
  articleReply : LLMReply EnhancedArticle
  messageReply : LLMReply AnalysisData
  pubSaveFails : Bool
  nowWall : Int

/-- Mutable state of the enhanced agent: the two backing files. -/
structure World where
  pubFile : PubFile
  trackerFile : TrackerFile
deriving DecidableEq

/-- Models load_existing_publications (lines 98-107): a missing or corrupt
store reads as empty. -/
def load_existing_publications : PubFile → List PubEntry
  | .content d => d
  | _ => []

/-- Models save_publications (lines 109-117): returns False and leaves the
file untouched when the write raises, True with the rewritten collection
otherwise. -/
def save_publications (env : Env) (file : PubFile) (pubs : List PubEntry) : Bool × PubFile :=
  if env.pubSaveFails then (false, file) else (true, .content pubs)

/-- Models extract_article_content (lines 136-242): builds the record from
the cascade result with or defaults, optionally enhances it, and converts
any exception into the placeholder error record. -/
def extract_article_content (env : Env) (url : String) : ArticleData :=
  match env.fetch url with
  | .exn e =>
    { url := url
      title := "Failed to extract: " ++ url
      summary := "Error occurred: " ++ e
      author := "Unknown"
      image := none
      extracted_at := isoformat { wall := env.nowWall, tz := some 0 }
      extraction_method := "error"
      enhanced_by_llm := false }
  | .ok pm =>
    let article : ArticleData :=
      { url := url
        title := pyOrOpt pm.title "Unknown Title"
        summary := pyOrOpt pm.description "No summary available"
        author := pyOrOpt pm.author "Unknown Author"
        image := pm.image
        extracted_at := isoformat { wall := env.nowWall, tz := some 0 }
        extraction_method := "web_scraping"
        enhanced_by_llm := false }
    if env.llmAvailable then
      SimpleLLM.enhance_article_extraction env.llmAvailable env.articleReply
        (fun e =>
          { article with
              title := e.title.getD article.title
              summary := e.summary.getD article.summary
              author := e.author.getD article.author
              category := some (e.category.getD "Unknown")
              key_points := some (e.key_points.getD [])
              confidence := some (e.confidence.getD "medium")
              article_type := some (e.article_type.getD "unknown")
              enhanced_by_llm := true
              llm_provider := some env.provider })
        { article with enhanced_by_llm := false }
    else { article with enhanced_by_llm := false }

/-- Models process_urls_in_message (lines 244-264): every URL occurrence
the extractor reports is fetched and kept, with the sender recorded. -/
def process_urls_in_message (env : Env) (message_text sender_name : String) : List ArticleData :=
  (env.urls message_text).map
    (fun url => { extract_article_content env url with sender := some sender_name })

/-- Models process_message_content (lines 266-288): blank text yields no
record; with the LLM available the classifier runs; otherwise the basic
analysis dict with message_type text is produced. -/
def process_message_content (env : Env) (message_text sender_name : String) : Option AnalysisData :=
  if pyStrip message_text = "" then none
  else if env.llmAvailable then
    some (SimpleLLM.summarize_message env.llmAvailable env.provider env.messageReply
      message_text sender_name)
  else
    some
      { summary := truncatedSummary message_text
        sentiment := "neutral"
        topics := []
        importance := "medium"
        message_type := some "text"
        enhanced_by_llm := false
        original_message := message_text
        sender := sender_name
        analyzed_at := some (isoformat { wall := env.nowWall, tz := some 0 }) }

/-- Models the tracking id expression of lines 307 and 410:
"me" if str(TELEGRAM_CHAT_ID).lower() == "me" else str(TELEGRAM_CHAT_ID). -/
def tracking_chat_id_of (cfgChatId : String) : String :=
  if pyLower cfgChatId = "me" then "me" else cfgChatId

/-- Models handle_new_message (lines 290-359), the Ingestion Coordinator:
normalize the timestamp, filter against the checkpoint, resolve every
extracted URL, classify non-blank text, attempt one store rewrite when
records were produced, then update the checkpoint.  ODT rendering (lines
328-337) only adds an odt_file key on success and is omitted. -/
def handle_new_message (env : Env) (cfgChatId : String) (msg : Message) (w : World) : World :=
  let sender_name := msg.sender
  let message_text := msg.text.getD ""
  let message_date := ensureUtc msg.date
  let tracking := PyChatId.str (tracking_chat_id_of cfgChatId)
  if should_process_message w.trackerFile message_date tracking then
    let publications := load_existing_publications w.pubFile
    let articles := process_urls_in_message env message_text sender_name
    let pubs1 := publications ++ articles.map PubEntry.article
    let analysis := process_message_content env message_text sender_name
    let step :=
      match analysis with
      | some a =>
        (pubs1 ++ [PubEntry.analysis
          { a with message_date := some (isoformat message_date)
                   chat_id := some (tracking_chat_id_of cfgChatId) }], true)
      | none => (pubs1, !articles.isEmpty)
    let pubFile1 := if step.2 then (save_publications env w.pubFile step.1).2 else w.pubFile
    { pubFile := pubFile1
      trackerFile := update_last_check_timestamp w.trackerFile tracking
        (some message_date) env.nowWall }
  else w

/-- Collection phase of process_recent_messages (lines 424-438): walk the
history newest-first up to the limit and keep every message the checkpoint
filter accepts; the checkpoint file is not modified during the walk. -/
def collect_new_messages (file : TrackerFile) (tracking : PyChatId)
    (history : List Message) (limit : Nat) : List Message :=
  (history.take limit).filter
    (fun m => should_process_message file (ensureUtc m.date) tracking)

/-- Processing phase of process_recent_messages (lines 445-458): feed each
collected message through handle_new_message in order. -/
def process_messages_loop (env : Env) (cfgChatId : String)
    (msgs : List Message) (w : World) : World :=
  msgs.foldl (fun acc m => handle_new_message env cfgChatId m acc) w

/-- Models process_recent_messages (lines 405-468), the Backfill Scanner:
collect, reverse to chronological order, process sequentially, then
unconditionally stamp the checkpoint with the current time (the
processed_count >= 0 guard of line 467 is always true). -/
def process_recent_messages (env : Env) (cfgChatId : String)
    (history : List Message) (limit : Nat) (w : World) : World :=
  let tracking := PyChatId.str (tracking_chat_id_of cfgChatId)
  let toProcess := (collect_new_messages w.trackerFile tracking history limit).reverse
  let w1 := process_messages_loop env cfgChatId toProcess w
  { w1 with trackerFile := update_last_check_timestamp w1.trackerFile tracking none env.nowWall }

end Enhanced

/-! ## Basic agent: src/agent.py -/

namespace Agent

/-- Article dict built by extract_article_data of agent.py. -/
structure ArticleData where
  title : String
  summary : String
  url : String
  image : String
  author : String
  date_extracted : String
  time_extracted : String
  enhanced_by_llm : Bool
  llm_provider : Option String := none
  category : Option String := none
  key_points : Option (List String) := none
  confidence : Option String := none
  article_type : Option String := none
deriving DecidableEq

/-- Net result of the soup.find cascades of extract_article_data, modeled
at the library boundary: for each field, the content the cascade would
extract (after strip, possibly empty) or none when no element matched. -/
structure PageMeta where
  title : Option String := none
  summary : Option String := none
  image : Option String := none
  author : Option String := none
deriving DecidableEq

/-- Outcome of requests.get plus parsing for one URL in agent.py. -/
inductive FetchResult where
  | ok (meta : PageMeta)
  | exn (msg : String)
deriving DecidableEq

/-- External-world inputs for agent.py processing: fetch outcomes, LLM
configuration and replies, and the extraction date and time strings. -/
structure Env where
  fetch : String → FetchResult
  llmAvailable : Bool
  provider : String
  articleReply : LLMReply EnhancedArticle
  dateStr : String
  timeStr : String

/-- Models LLMProcessor.enhance_article_extraction of llm_processor.py
applied to a basic agent record: the same merge as the simple processor,
except that an unavailable service returns the record unchanged. -/
def enhance_article_extraction (env : Env) (basic : ArticleData) : ArticleData :=
  if env.llmAvailable then
    match env.articleReply with
    | .json e =>
      { basic with
          title := e.title.getD basic.title
          summary := e.summary.getD basic.summary
          author := e.author.getD basic.author
          category := some (e.category.getD "Unknown")
          key_points := some (e.key_points.getD [])
          confidence := some (e.confidence.getD "medium")
          article_type := some (e.article_type.getD "unknown")
          enhanced_by_llm := true
          llm_provider := some env.provider }
    | _ => { basic with enhanced_by_llm := false }
  else basic

/-- Models extract_article_data (lines 109-209 of agent.py): cascade
extraction with per-field defaults, title truncated to 200 and summary to
500 characters, optional LLM enhancement, and the fixed fallback record
with title "Could not extract title" for any scraping exception. -/
def extract_article_data (env : Env) (url : String) : ArticleData :=
  match env.fetch url with
  | .exn _ =>
    { title := "Could not extract title"
      summary := "Could not extract summary"
      url := url
      image := "No image available"
      author := "Unknown Author"
      date_extracted := env.dateStr
      time_extracted := env.timeStr
      enhanced_by_llm := false }
  | .ok pm =>
    let title := pm.title.getD "Article Title Not Found"
    let summary := pm.summary.getD "No summary available"
    let image0 := pm.image.getD ""
    let basic : ArticleData :=
      { title := pyTake title 200
        summary := pyTake summary 500
        url := url
        image := if image0 = "" then "No image available" else image0
        author := pm.author.getD "Unknown Author"
        date_extracted := env.dateStr
        time_extracted := env.timeStr
        enhanced_by_llm := false }
    if env.llmAvailable then enhance_article_extraction env basic
    else { basic with enhanced_by_llm := false }

/-- Edits the interactive modify_article_data step can make: an empty
input keeps the stored value, anything else replaces it; the url field
cannot be edited. -/
structure ModifyFields where
  title : String
  summary : String
  author : String
  image : String
deriving DecidableEq

/-- Models modify_article_data (lines 269-290 of agent.py). -/
def applyModify (m : ModifyFields) (a : ArticleData) : ArticleData :=
  { a with
      title := if m.title = "" then a.title else m.title
      summary := if m.summary = "" then a.summary else m.summary
      author := if m.author = "" then a.author else m.author
      image := if m.image = "" then a.image else m.image }

/-- User decision for one previewed article: accept, reject, or modify
followed by the save confirmation. -/
inductive Decision where
  | accept
  | reject
  | modify (m : ModifyFields) (save : Bool)
deriving DecidableEq

/-- Models the URL loop of process_urls_in_message (lines 337-380 of
agent.py) over the article entries of the store: a URL whose record is
already present is skipped without fetching; otherwise the article is
extracted and appended when the user accepts it.  The interactive prompt
is modeled as the decision function. -/
def process_urls_in_message (env : Env) (dec : String → Decision) :
    List String → List ArticleData → List ArticleData
  | [], pubs => pubs
  | url :: rest, pubs =>
    if pubs.any (fun p => p.url = url) then process_urls_in_message env dec rest pubs
    else
      let article := extract_article_data env url
      match dec url with
      | .reject => process_urls_in_message env dec rest pubs
      | .accept => process_urls_in_message env dec rest (pubs ++ [article])
      | .modify m true => process_urls_in_message env dec rest (pubs ++ [applyModify m article])
      | .modify _ false => process_urls_in_message env dec rest pubs

end Agent

/-! ## Concrete scenario inputs used by counterexamples and witnesses -/

/-- Environment with no LLM and a failing publications write. -/
def envFail : Enhanced.Env :=
  { urls := fun _ => []
    fetch := fun _ => .exn "unreachable"
    llmAvailable := false
    provider := ""
    articleReply := .empty
    messageReply := .empty
    pubSaveFails := true
    nowWall := 1000 }

/-- Environment whose extractor finds one URL in the duplicate-URL text
(the match the regular expression of extract_urls_from_text produces on
that text) and whose fetches succeed with an empty cascade. -/
def envDup : Enhanced.Env :=
  { urls := fun t => if t = "see http://a" then ["http://a"] else []
    fetch := fun _ => .ok {}
    llmAvailable := false
    provider := ""
    articleReply := .empty
    messageReply := .empty
    pubSaveFails := false
    nowWall := 50 }

/-- Environment for the backfill scenario: no URLs, clock at 100. -/
def envScan : Enhanced.Env :=
  { urls := fun _ => []
    fetch := fun _ => .exn "offline"
    llmAvailable := false
    provider := ""
    articleReply := .empty
    messageReply := .empty
    pubSaveFails := false
    nowWall := 100 }

/-- Environment with no LLM configured and working storage. -/
def envNoLLM : Enhanced.Env :=
  { urls := fun _ => []
    fetch := fun _ => .exn "x"
    llmAvailable := false
    provider := ""
    articleReply := .empty
    messageReply := .empty
    pubSaveFails := false
    nowWall := 0 }

/-- Environment whose single fetch raises a timeout. -/
def envTimeout : Enhanced.Env :=
  { urls := fun t => if t = "see http://x" then ["http://x"] else []
    fetch := fun _ => .exn "timeout"
    llmAvailable := false
    provider := ""
    articleReply := .empty
    messageReply := .empty
    pubSaveFails := false
    nowWall := 7 }

/-- Title of 201 characters, exceeding the 200-character bound. -/
def longTitle : String := String.mk (List.replicate 201 'a')

/-- Environment whose fetch succeeds with a 201-character page title. -/
def envLong : Enhanced.Env :=
  { urls := fun _ => []
    fetch := fun _ => .ok { title := some longTitle }
    llmAvailable := false
    provider := ""
    articleReply := .empty
    messageReply := .empty
    pubSaveFails := false
    nowWall := 0 }

/-- Basic-agent environment with successful empty-cascade fetches. -/
def envAgent : Agent.Env :=
  { fetch := fun _ => .ok {}
    llmAvailable := false
    provider := ""
    articleReply := .empty
    dateStr := "2026-01-01"
    timeStr := "00:00:00" }

/-- Decision oracle that accepts every previewed article. -/
def decAccept : String → Agent.Decision := fun _ => .accept

/-- Backfill history: three messages at t = 30, 20, 10, newest first. -/
def scanHistory : List Enhanced.Message :=
  [{ sender := "u", text := none, date := { wall := 30, tz := some 0 } },
   { sender := "u", text := none, date := { wall := 20, tz := some 0 } },
   { sender := "u", text := none, date := { wall := 10, tz := some 0 } }]

/-! ## Supporting lemmas -/

theorem charDigit_digitChar {d : Nat} (hd : d < 10) :
    charDigit (digitChar d) = some d := by
  interval_cases d <;> decide

theorem natDigits_lt_ten : ∀ fuel n d, d ∈ natDigits fuel n → d < 10 := by
  intro fuel
  induction fuel with
  | zero => intro n d h; simp [natDigits] at h
  | succ f ih =>
    intro n d h
    cases n with
    | zero => simp [natDigits] at h
    | succ m =>
      simp only [natDigits, List.mem_cons] at h
      rcases h with h | h
      · subst h; exact Nat.mod_lt _ (by omega)
      · exact ih _ _ h

theorem digitsVal_natDigits : ∀ fuel n, n ≤ fuel → digitsVal (natDigits fuel n) = n := by
  intro fuel
  induction fuel with
  | zero => intro n h; interval_cases n; simp [natDigits, digitsVal]
  | succ f ih =>
    intro n h
    cases n with
    | zero => simp [natDigits, digitsVal]
    | succ m =>
      have hdiv : (m + 1) / 10 ≤ f := by
        have := Nat.div_lt_self (Nat.succ_pos m) (by omega : 1 < 10)
        omega
      simp only [natDigits, digitsVal, ih _ hdiv]
      omega

theorem charsToDigits_map_digitChar :
    ∀ l : List Nat, (∀ d ∈ l, d < 10) → charsToDigits (l.map digitChar) = some l := by
  intro l
  induction l with
  | nil => intro _; rfl
  | cons d ds ih =>
    intro h
    have hd : d < 10 := h d (List.mem_cons_self _ _)
    have hds : ∀ x ∈ ds, x < 10 := fun x hx => h x (List.mem_cons_of_mem _ hx)
    simp only [List.map_cons, charsToDigits, charDigit_digitChar hd, ih hds]

theorem printNatChars_ne_nil (n : Nat) : printNatChars n ≠ [] := by
  unfold printNatChars
  by_cases h : n = 0
  · simp [h]
  · simp only [h, if_false]
    cases n with
    | zero => exact absurd rfl h
    | succ m => simp [natDigits]

theorem printNatChars_eq_map_reverse (n : Nat) (h : n ≠ 0) :
    printNatChars n = (natDigits n n).reverse.map digitChar := by
  unfold printNatChars
  simp only [h, if_false]
  simp [List.map_reverse]

theorem parseNatChars_printNatChars (n : Nat) :
    parseNatChars (printNatChars n) = some n := by
  by_cases h : n = 0
  · subst h; decide
  · have hform := printNatChars_eq_map_reverse n h
    cases hp : printNatChars n with
    | nil => exact absurd hp (printNatChars_ne_nil n)
    | cons c cs =>
      have hstep : parseNatChars (c :: cs) =
          (charsToDigits (c :: cs)).map (fun ds => digitsVal ds.reverse) := rfl
      rw [hstep, ← hp, hform]
      rw [charsToDigits_map_digitChar _ (fun d hd => natDigits_lt_ten n n d (List.mem_reverse.mp hd))]
      simp [digitsVal_natDigits n n (le_refl n)]

theorem minus_not_mem_printNatChars (n : Nat) : '-' ∉ printNatChars n := by
  unfold printNatChars
  by_cases h0 : n = 0
  · simp [h0]
  · simp only [h0, if_false, List.mem_reverse, List.mem_map]
    rintro ⟨d, hd, hdc⟩
    have : d < 10 := natDigits_lt_ten _ _ _ hd
    interval_cases d <;> simp_all [digitChar]

theorem parseIntChars_printIntChars (i : Int) :
    parseIntChars (printIntChars i) = some i := by
  unfold printIntChars
  by_cases h : i < 0
  · rw [if_pos h]
    have hred : parseIntChars ('-' :: printNatChars i.natAbs)
        = (parseNatChars (printNatChars i.natAbs)).map (fun n => -(n : Int)) := rfl
    rw [hred, parseNatChars_printNatChars]
    show some (-(i.natAbs : Int)) = some i
    congr 1
    omega
  · rw [if_neg h]
    obtain ⟨c, rest, hcs⟩ : ∃ c rest, printNatChars i.natAbs = c :: rest := by
      cases hx : printNatChars i.natAbs with
      | nil => exact absurd hx (printNatChars_ne_nil _)
      | cons c rest => exact ⟨c, rest, rfl⟩
    have hcne : c ≠ '-' := by
      intro hc
      exact minus_not_mem_printNatChars i.natAbs (hcs ▸ hc ▸ List.mem_cons_self _ _)
    rw [hcs]
    have hred : parseIntChars (c :: rest)
        = if c = '-' then (parseNatChars rest).map (fun n => -(n : Int))
          else (parseNatChars (c :: rest)).map (fun n => (n : Int)) := rfl
    rw [hred, if_neg hcne, ← hcs, parseNatChars_printNatChars]
    show some ((i.natAbs : Int)) = some i
    congr 1
    omega

theorem ensureUtc_idem (d : Datetime) : ensureUtc (ensureUtc d) = ensureUtc d := by
  cases d with
  | mk w tz => cases tz <;> rfl

theorem ensureUtc_aware (d : Datetime) (h : d.tz ≠ none) : ensureUtc d = d := by
  cases d with
  | mk w tz => cases tz with
    | none => exact absurd rfl h
    | some o => rfl

theorem ensureUtc_tz_ne_none (d : Datetime) : (ensureUtc d).tz ≠ none := by
  cases d with
  | mk w tz => cases tz <;> simp [ensureUtc]

theorem sep_not_mem_printIntChars (i : Int) : 'T' ∉ printIntChars i := by
  unfold printIntChars
  have hnat : ∀ n : Nat, 'T' ∉ printNatChars n := by
    intro n
    unfold printNatChars
    by_cases h0 : n = 0
    · simp [h0]
    · simp only [h0, if_false, List.mem_reverse, List.mem_map]
      rintro ⟨d, hd, hdc⟩
      have : d < 10 := natDigits_lt_ten _ _ _ hd
      interval_cases d <;> simp_all [digitChar]
  by_cases h : i < 0
  · simp only [h, if_true, List.mem_cons]
    rintro (hc | hc)
    · exact absurd hc.symm (by decide)
    · exact hnat _ hc
  · simp only [h, if_false]
    exact hnat _

theorem breakAtSep_no_sep (l : List Char) (h : 'T' ∉ l) : breakAtSep l = (l, none) := by
  induction l with
  | nil => rfl
  | cons c cs ih =>
    have hc : c ≠ 'T' := fun hx => h (hx ▸ List.mem_cons_self _ _)
    have hcs : 'T' ∉ cs := fun hx => h (List.mem_cons_of_mem _ hx)
    simp [breakAtSep, hc, ih hcs]

theorem breakAtSep_append (a b : List Char) (h : 'T' ∉ a) :
    breakAtSep (a ++ 'T' :: b) = (a, some b) := by
  induction a with
  | nil => simp [breakAtSep]
  | cons c cs ih =>
    have hc : c ≠ 'T' := fun hx => h (hx ▸ List.mem_cons_self _ _)
    have hcs : 'T' ∉ cs := fun hx => h (List.mem_cons_of_mem _ hx)
    simp [breakAtSep, hc, ih hcs]

theorem toList_isoformat (d : Datetime) : (isoformat d).toList = isoChars d := rfl

theorem fromisoformat_isoformat (d : Datetime) : fromisoformat (isoformat d) = some d := by
  unfold fromisoformat
  rw [toList_isoformat]
  cases d with
  | mk w tz =>
    cases tz with
    | none =>
      simp only [isoChars]
      rw [breakAtSep_no_sep _ (sep_not_mem_printIntChars w)]
      simp [parseIntChars_printIntChars]
    | some o =>
      simp only [isoChars]
      rw [breakAtSep_append _ _ (sep_not_mem_printIntChars w)]
      simp [parseIntChars_printIntChars]

theorem isoformat_ne_empty (d : Datetime) : isoformat d ≠ "" := by
  intro h
  have hlist : isoChars d = [] := by
    have := congrArg String.toList h
    rw [toList_isoformat] at this
    simpa using this
  cases d with
  | mk w tz =>
    cases tz with
    | none =>
      unfold isoChars printIntChars at hlist
      by_cases hw : w < 0
      · simp [hw] at hlist
      · simp only [hw, if_false] at hlist
        exact printNatChars_ne_nil _ hlist
    | some o =>
      unfold isoChars printIntChars at hlist
      by_cases hw : w < 0
      · simp [hw] at hlist
      · simp only [hw, if_false] at hlist
        rcases List.append_eq_nil.mp hlist with ⟨h1, _⟩
        exact printNatChars_ne_nil _ h1

theorem dictGet_dictSet_self (d : List (String × String)) (k v : String) :
    dictGet (dictSet d k v) k = some v := by
  induction d with
  | nil => simp [dictGet, dictSet]
  | cons p rest ih =>
    obtain ⟨k', v'⟩ := p
    by_cases h : k' = k
    · simp [dictGet, dictSet, h]
    · simp [dictGet, dictSet, h, ih]

theorem dictGet_dictSet_other (d : List (String × String)) (k k' v : String) (h : k ≠ k') :
    dictGet (dictSet d k v) k' = dictGet d k' := by
  induction d with
  | nil => simp [dictGet, dictSet, h]
  | cons p rest ih =>
    obtain ⟨k0, v0⟩ := p
    by_cases h0 : k0 = k
    · subst h0
      simp [dictGet, dictSet, h]
    · simp [dictGet, dictSet, h0, ih]

theorem get_update_same_key (file : TrackerFile) (c : PyChatId) (t : Datetime) (nowWall : Int) :
    get_last_check_timestamp (update_last_check_timestamp file c (some t) nowWall) c
      = some (ensureUtc t) := by
  unfold get_last_check_timestamp update_last_check_timestamp
  simp only [Option.getD, load_timestamp_data, save_timestamp_data]
  rw [dictGet_dictSet_self]
  simp [isoformat_ne_empty, fromisoformat_isoformat]

theorem Agent.extract_article_data_url (env : Env) (url : String) :
    (extract_article_data env url).url = url := by
  unfold extract_article_data
  cases env.fetch url with
  | exn e => rfl
  | ok pm =>
    simp only []
    unfold enhance_article_extraction
    by_cases h : env.llmAvailable
    · simp only [h, if_true]
      cases env.articleReply <;> rfl
    · simp [h]

theorem Agent.applyModify_url (m : ModifyFields) (a : ArticleData) :
    (applyModify m a).url = a.url := rfl

theorem nodup_append_single {α : Type} {l : List α} {a : α}
    (h : l.Nodup) (ha : a ∉ l) : (l ++ [a]).Nodup := by
  rw [(List.perm_append_singleton a l).nodup_iff]
  exact List.nodup_cons.mpr ⟨ha, h⟩

theorem pyTake_length_le (s : String) (n : Nat) : (pyTake s n).length ≤ n := by
  have h : (pyTake s n).length = (s.toList.take n).length := rfl
  rw [h, List.length_take]
  exact Nat.min_le_left _ _

/-! ## Claim theorems -/

/-- C2: for a chat whose stored checkpoint is T, should_process is false
for every message timestamp at most T and true for every timestamp
strictly greater than T, both normalized to the UTC reference zone when
naive; with no checkpoint it is true for every timestamp. -/
theorem should_process_trichotomy (file : TrackerFile) (chat : PyChatId) (t T : Datetime) :
    (get_last_check_timestamp file chat = some T →
      ((ensureUtc t).utcInstant ≤ (ensureUtc T).utcInstant →
        should_process_message file t chat = false) ∧
      ((ensureUtc T).utcInstant < (ensureUtc t).utcInstant →
        should_process_message file t chat = true)) ∧
    (get_last_check_timestamp file chat = none →
      should_process_message file t chat = true) := by
  constructor
  · intro hget
    unfold should_process_message
    rw [hget]
    unfold dtGt
    constructor
    · intro hle
      simp only [decide_eq_false_iff_not, not_lt]
      exact hle
    · intro hlt
      simp only [decide_eq_true_eq]
      exact hlt
  · intro hget
    unfold should_process_message
    rw [hget]

/-- Witness for C2 at a stored checkpoint of instant 5, with message
instants 3 (filtered) and 9 (processed). -/
theorem should_process_trichotomy_witness :
    should_process_message
      (TrackerFile.content [("global", isoformat { wall := 5, tz := some 0 })])
      { wall := 3, tz := some 0 } PyChatId.none = false ∧
    should_process_message
      (TrackerFile.content [("global", isoformat { wall := 5, tz := some 0 })])
      { wall := 9, tz := some 0 } PyChatId.none = true :=
  ⟨((should_process_trichotomy _ PyChatId.none { wall := 3, tz := some 0 }
      { wall := 5, tz := some 0 }).1 (by decide)).1 (by decide),
   ((should_process_trichotomy _ PyChatId.none { wall := 9, tz := some 0 }
      { wall := 5, tz := some 0 }).1 (by decide)).2 (by decide)⟩

/-- C7: a missing, unreadable or corrupt checkpoint backing file reads as
no checkpoint, so every message timestamp passes the filter; no exception
escapes (the model is total). -/
theorem corrupt_checkpoint_degrades_to_none (chat : PyChatId) (t : Datetime) :
    get_last_check_timestamp .missing chat = none ∧
    get_last_check_timestamp .unreadable chat = none ∧
    get_last_check_timestamp .invalidJson chat = none ∧
    should_process_message .missing t chat = true ∧
    should_process_message .unreadable t chat = true ∧
    should_process_message .invalidJson t chat = true :=
  ⟨rfl, rfl, rfl, rfl, rfl, rfl⟩

/-- C9: update_last_check_timestamp followed by get_last_check_timestamp
on the same chat key returns the written timestamp exactly when it was
timezone-aware, returns its UTC-tagged coercion when it was naive, and the
value read back is always timezone-aware. -/
theorem checkpoint_roundtrip (file : TrackerFile) (chat : PyChatId)
    (t : Datetime) (nowWall : Int) :
    get_last_check_timestamp (update_last_check_timestamp file chat (some t) nowWall) chat
      = some (ensureUtc t) ∧
    (t.tz ≠ none →
      get_last_check_timestamp (update_last_check_timestamp file chat (some t) nowWall) chat
        = some t) ∧
    (∀ r, get_last_check_timestamp
        (update_last_check_timestamp file chat (some t) nowWall) chat = some r →
      r.tz ≠ none) := by
  refine ⟨get_update_same_key file chat t nowWall, ?_, ?_⟩
  · intro ht
    rw [get_update_same_key, ensureUtc_aware t ht]
  · intro r hr
    rw [get_update_same_key] at hr
    cases hr
    exact ensureUtc_tz_ne_none t

/-- Witness for C9 at chat id 42 and the aware timestamp of wall 7,
offset 120 minutes. -/
theorem checkpoint_roundtrip_witness :
    (({ wall := 7, tz := some 120 } : Datetime).tz ≠ none) ∧
    get_last_check_timestamp
      (update_last_check_timestamp TrackerFile.missing (PyChatId.int 42)
        (some { wall := 7, tz := some 120 }) 0) (PyChatId.int 42)
      = some { wall := 7, tz := some 120 } :=
  ⟨by decide,
    (checkpoint_roundtrip TrackerFile.missing (PyChatId.int 42)
      { wall := 7, tz := some 120 } 0).2.1 (by decide)⟩

/-- C10: every tracker operation maps a falsy chat_id (None, 0 or the
empty string) to the literal key "global", so chat 0 shares the global
checkpoint and can never have an independent entry. -/
theorem falsy_chat_id_global (file : TrackerFile) (t : Datetime)
    (ts : Option Datetime) (nowWall : Int) :
    trackerKey PyChatId.none = "global" ∧
    trackerKey (PyChatId.int 0) = "global" ∧
    trackerKey (PyChatId.str "") = "global" ∧
    get_last_check_timestamp file (PyChatId.int 0)
      = get_last_check_timestamp file PyChatId.none ∧
    get_last_check_timestamp file (PyChatId.str "")
      = get_last_check_timestamp file PyChatId.none ∧
    update_last_check_timestamp file (PyChatId.int 0) ts nowWall
      = update_last_check_timestamp file PyChatId.none ts nowWall ∧
    update_last_check_timestamp file (PyChatId.str "") ts nowWall
      = update_last_check_timestamp file PyChatId.none ts nowWall ∧
    should_process_message file t (PyChatId.int 0)
      = should_process_message file t PyChatId.none ∧
    should_process_message file t (PyChatId.str "")
      = should_process_message file t PyChatId.none :=
  ⟨rfl, rfl, rfl, rfl, rfl, rfl, rfl, rfl, rfl⟩

/-- C1 counterexample: a message accepted while the publications write
fails still has its checkpoint advanced from instant 5 to its sent_at 10;
nothing was persisted, yet the prior checkpoint value is not kept. -/
theorem checkpoint_advanced_despite_failed_write_cex :
    (Enhanced.handle_new_message envFail "me"
      { sender := "alice", text := some "hello", date := { wall := 10, tz := some 0 } }
      { pubFile := .content [],
        trackerFile := .content [("me", isoformat { wall := 5, tz := some 0 })] }).pubFile
      = .content [] ∧
    get_last_check_timestamp (Enhanced.handle_new_message envFail "me"
      { sender := "alice", text := some "hello", date := { wall := 10, tz := some 0 } }
      { pubFile := .content [],
        trackerFile := .content [("me", isoformat { wall := 5, tz := some 0 })] }).trackerFile
      (PyChatId.str "me") = some { wall := 10, tz := some 0 } ∧
    ¬ get_last_check_timestamp (Enhanced.handle_new_message envFail "me"
      { sender := "alice", text := some "hello", date := { wall := 10, tz := some 0 } }
      { pubFile := .content [],
        trackerFile := .content [("me", isoformat { wall := 5, tz := some 0 })] }).trackerFile
      (PyChatId.str "me") = some { wall := 5, tz := some 0 } := by
  decide

/-- C1 amended: for every accepted message the coordinator sets the
checkpoint of the message's chat key to its normalized sent_at after the
persistence attempt, unconditionally; when the store write fails the
publications file is left unchanged but the checkpoint still advances. -/
theorem checkpoint_advances_unconditionally (env : Enhanced.Env) (cfg : String)
    (msg : Enhanced.Message) (w : Enhanced.World)
    (h : should_process_message w.trackerFile (ensureUtc msg.date)
      (PyChatId.str (Enhanced.tracking_chat_id_of cfg)) = true) :
    get_last_check_timestamp (Enhanced.handle_new_message env cfg msg w).trackerFile
      (PyChatId.str (Enhanced.tracking_chat_id_of cfg)) = some (ensureUtc msg.date) ∧
    (env.pubSaveFails = true →
      (Enhanced.handle_new_message env cfg msg w).pubFile = w.pubFile) := by
  unfold Enhanced.handle_new_message
  rw [if_pos h]
  constructor
  · rw [get_update_same_key, ensureUtc_idem]
  · intro hf
    unfold Enhanced.save_publications
    rw [hf]
    simp [ite_self]

/-- Witness for C1 amended at a fresh chat "42" with a failing write. -/
theorem checkpoint_advances_unconditionally_witness :
    should_process_message (TrackerFile.content [])
      (ensureUtc { wall := 10, tz := some 0 })
      (PyChatId.str (Enhanced.tracking_chat_id_of "42")) = true ∧
    get_last_check_timestamp (Enhanced.handle_new_message envFail "42"
      { sender := "bob", text := some "hi", date := { wall := 10, tz := some 0 } }
      { pubFile := .content [], trackerFile := .content [] }).trackerFile
      (PyChatId.str (Enhanced.tracking_chat_id_of "42"))
      = some (ensureUtc { wall := 10, tz := some 0 }) :=
  ⟨by decide,
    (checkpoint_advances_unconditionally envFail "42"
      { sender := "bob", text := some "hi", date := { wall := 10, tz := some 0 } }
      { pubFile := .content [], trackerFile := .content [] } (by decide)).1⟩

/-- C4 counterexample: with an absent checkpoint and backfill history at
instants 10, 20, 30, the final checkpoint is the scan wall-clock time 100,
not 30, because process_recent_messages unconditionally stamps the current
time after the loop. -/
theorem backfill_final_checkpoint_cex :
    get_last_check_timestamp (Enhanced.process_recent_messages envScan "chat"
      scanHistory 3 { pubFile := .content [], trackerFile := .content [] }).trackerFile
      (PyChatId.str "chat") = some { wall := 100, tz := some 0 } ∧
    ¬ get_last_check_timestamp (Enhanced.process_recent_messages envScan "chat"
      scanHistory 3 { pubFile := .content [], trackerFile := .content [] }).trackerFile
      (PyChatId.str "chat") = some { wall := 30, tz := some 0 } := by
  decide

/-- C4 amended: the scan collects all three messages, processes them in
chronological order 10, 20, 30, and the checkpoint immediately after that
sequential processing is 30; the scan then overwrites it with the current
wall-clock time, so the final checkpoint equals the scan time 100 rather
than 30. -/
theorem backfill_scenario_amended :
    (Enhanced.collect_new_messages (TrackerFile.content []) (PyChatId.str "chat")
        scanHistory 3).reverse.map (fun m => m.date)
      = [{ wall := 10, tz := some 0 }, { wall := 20, tz := some 0 },
         { wall := 30, tz := some 0 }] ∧
    get_last_check_timestamp
      (Enhanced.process_messages_loop envScan "chat"
        (Enhanced.collect_new_messages (TrackerFile.content []) (PyChatId.str "chat")
          scanHistory 3).reverse
        { pubFile := .content [], trackerFile := .content [] }).trackerFile
      (PyChatId.str "chat") = some { wall := 30, tz := some 0 } ∧
    get_last_check_timestamp (Enhanced.process_recent_messages envScan "chat"
      scanHistory 3 { pubFile := .content [], trackerFile := .content [] }).trackerFile
      (PyChatId.str "chat") = some { wall := 100, tz := some 0 } := by
  decide

/-- C3 counterexample: the enhanced coordinator performs no URL dedup:
processing two different accepted messages that both contain
http://a leaves the Publication Store with two ArticleRecords bearing
that url, and the second occurrence is fetched again. -/
theorem enhanced_store_duplicate_url_cex :
    ((Enhanced.load_existing_publications
      (Enhanced.handle_new_message envDup "c"
        { sender := "bob", text := some "see http://a", date := { wall := 2, tz := some 0 } }
        (Enhanced.handle_new_message envDup "c"
          { sender := "alice", text := some "see http://a", date := { wall := 1, tz := some 0 } }
          { pubFile := .content [], trackerFile := .content [] })).pubFile).filter
      (fun e => match e with
        | .article a => a.url == "http://a"
        | .analysis _ => false)).length = 2 := by
  decide

/-- C3 amended: URL dedup lives only in the basic agent: its URL loop
skips without fetching any URL whose record is already stored, and it
preserves the no-two-records-share-a-url invariant; the enhanced
coordinator appends one record per URL occurrence, so duplicates occur
there. -/
theorem agent_url_dedup (env : Agent.Env) (dec : String → Agent.Decision) :
    (∀ (urls : List String) (pubs : List Agent.ArticleData),
      (pubs.map (fun p => p.url)).Nodup →
      ((Agent.process_urls_in_message env dec urls pubs).map (fun p => p.url)).Nodup) ∧
    (∀ (u : String) (pubs : List Agent.ArticleData),
      u ∈ pubs.map (fun p => p.url) →
      Agent.process_urls_in_message env dec [u] pubs = pubs) := by
  constructor
  · intro urls
    induction urls with
    | nil => intro pubs h; exact h
    | cons url rest ih =>
      intro pubs h
      simp only [Agent.process_urls_in_message]
      split
      case isTrue => exact ih pubs h
      case isFalse hany =>
        have hnotmem : url ∉ pubs.map (fun p => p.url) := by
          intro hmem
          apply hany
          rcases List.mem_map.mp hmem with ⟨p, hp, hpu⟩
          exact List.any_eq_true.mpr ⟨p, hp, by simp [hpu]⟩
        cases hdec : dec url with
        | reject => exact ih pubs h
        | accept =>
          apply ih
          have hmap : ((pubs ++ [Agent.extract_article_data env url]).map (fun p => p.url))
              = pubs.map (fun p => p.url) ++ [url] := by
            simp [Agent.extract_article_data_url]
          rw [hmap]
          exact nodup_append_single h hnotmem
        | modify m save =>
          cases save with
          | false => exact ih pubs h
          | true =>
            apply ih
            have hmap : ((pubs ++ [Agent.applyModify m
                (Agent.extract_article_data env url)]).map (fun p => p.url))
                = pubs.map (fun p => p.url) ++ [url] := by
              simp [Agent.applyModify_url, Agent.extract_article_data_url]
            rw [hmap]
            exact nodup_append_single h hnotmem
  · intro u pubs hmem
    have hany : (pubs.any fun p => decide (p.url = u)) = true := by
      rcases List.mem_map.mp hmem with ⟨p, hp, hpu⟩
      exact List.any_eq_true.mpr ⟨p, hp, by simp [hpu]⟩
    simp only [Agent.process_urls_in_message]
    rw [if_pos hany]

/-- Witness for C3 amended: the same URL twice against an initially empty
store ends with no duplicate urls (exactly one record is appended). -/
theorem agent_url_dedup_witness :
    (([] : List Agent.ArticleData).map (fun p => p.url)).Nodup ∧
    ((Agent.process_urls_in_message envAgent decAccept ["http://a", "http://a"] []).map
      (fun p => p.url)).Nodup :=
  ⟨by decide, (agent_url_dedup envAgent decAccept).1 ["http://a", "http://a"] [] (by decide)⟩

/-- C5 counterexample: with no enrichment service configured, the
fallback record for the non-blank text "hi" has message_type text, not
other. -/
theorem fallback_message_type_cex :
    (Enhanced.process_message_content envNoLLM "hi" "s").map (fun a => a.message_type)
      = some (some "text") ∧
    ¬ (Enhanced.process_message_content envNoLLM "hi" "s").map (fun a => a.message_type)
      = some (some "other") := by
  decide

/-- C5 amended: classifying non-blank text always succeeds with the
deterministic fallback fields (truncated summary, neutral sentiment, no
topics, medium importance, enhanced flag false); message_type is text
when no enrichment service is configured and other when the service call
fails or returns malformed JSON. -/
theorem classifier_fallback_fields (env : Enhanced.Env) (text sender : String)
    (h : pyStrip text ≠ "") :
    (env.llmAvailable = false →
      ∃ a, Enhanced.process_message_content env text sender = some a ∧
        a.summary = (if 100 < text.length then pyTake text 100 ++ "..." else text) ∧
        a.sentiment = "neutral" ∧ a.topics = [] ∧ a.importance = "medium" ∧
        a.message_type = some "text" ∧ a.enhanced_by_llm = false) ∧
    (env.llmAvailable = true →
      (env.messageReply = .empty ∨ env.messageReply = .notJson) →
      ∃ a, Enhanced.process_message_content env text sender = some a ∧
        a.summary = (if 100 < text.length then pyTake text 100 ++ "..." else text) ∧
        a.sentiment = "neutral" ∧ a.topics = [] ∧ a.importance = "medium" ∧
        a.message_type = some "other" ∧ a.enhanced_by_llm = false) := by
  constructor
  · intro hllm
    unfold Enhanced.process_message_content
    rw [if_neg h, hllm]
    simp only [Bool.false_eq_true, if_false]
    exact ⟨_, rfl, rfl, rfl, rfl, rfl, rfl, rfl⟩
  · intro hllm hrep
    unfold Enhanced.process_message_content
    rw [if_neg h, hllm]
    simp only [if_true]
    unfold SimpleLLM.summarize_message
    have hcond : ¬ (¬ true = true ∨ pyStrip text = "") := by
      simp [h]
    rw [if_neg hcond]
    rcases hrep with h1 | h1 <;> rw [h1] <;>
      exact ⟨_, rfl, rfl, rfl, rfl, rfl, rfl, rfl⟩

/-- Witness for C5 amended on the text "hello" with no service. -/
theorem classifier_fallback_fields_witness :
    pyStrip "hello" ≠ "" ∧
    envNoLLM.llmAvailable = false ∧
    (∃ a, Enhanced.process_message_content envNoLLM "hello" "s" = some a ∧
      a.summary = (if 100 < ("hello" : String).length then pyTake "hello" 100 ++ "..."
        else "hello") ∧
      a.sentiment = "neutral" ∧ a.topics = [] ∧ a.importance = "medium" ∧
      a.message_type = some "text" ∧ a.enhanced_by_llm = false) :=
  ⟨by decide, rfl, (classifier_fallback_fields envNoLLM "hello" "s" (by decide)).1 rfl⟩

/-- C6 counterexample: the enhanced resolver converts a timed-out fetch
into a placeholder with extraction_method error but its title is the
string Failed to extract followed by the url, not Could not extract
title. -/
theorem error_placeholder_title_cex :
    (Enhanced.extract_article_content envTimeout "http://x").extraction_method = "error" ∧
    (Enhanced.extract_article_content envTimeout "http://x").title
      = "Failed to extract: http://x" ∧
    ¬ (Enhanced.extract_article_content envTimeout "http://x").title
      = "Could not extract title" := by
  decide

/-- C6 amended: article resolution never raises outward: in the enhanced
pipeline any fetch or parse exception becomes a placeholder record with
extraction_method error and title Failed to extract plus the url, and
that placeholder is still appended to the Publication Store; the basic
agent resolver instead titles its placeholder Could not extract title. -/
theorem error_placeholder_record_appended (env : Enhanced.Env) (cfg : String)
    (msg : Enhanced.Message) (w : Enhanced.World) (url e : String)
    (hacc : should_process_message w.trackerFile (ensureUtc msg.date)
      (PyChatId.str (Enhanced.tracking_chat_id_of cfg)) = true)
    (hurls : env.urls (msg.text.getD "") = [url])
    (hfetch : env.fetch url = .exn e)
    (hsave : env.pubSaveFails = false) :
    Enhanced.extract_article_content env url =
      { url := url
        title := "Failed to extract: " ++ url
        summary := "Error occurred: " ++ e
        author := "Unknown"
        image := none
        extracted_at := isoformat { wall := env.nowWall, tz := some 0 }
        extraction_method := "error"
        enhanced_by_llm := false } ∧
    Enhanced.PubEntry.article
        { Enhanced.extract_article_content env url with sender := some msg.sender }
      ∈ Enhanced.load_existing_publications
          (Enhanced.handle_new_message env cfg msg w).pubFile ∧
    (∀ (envA : Agent.Env) (u e2 : String), envA.fetch u = Agent.FetchResult.exn e2 →
      (Agent.extract_article_data envA u).title = "Could not extract title") := by
  have hplaceholder : Enhanced.extract_article_content env url =
      { url := url
        title := "Failed to extract: " ++ url
        summary := "Error occurred: " ++ e
        author := "Unknown"
        image := none
        extracted_at := isoformat { wall := env.nowWall, tz := some 0 }
        extraction_method := "error"
        enhanced_by_llm := false } := by
    unfold Enhanced.extract_article_content
    rw [hfetch]
  refine ⟨hplaceholder, ?_, ?_⟩
  · cases han : Enhanced.process_message_content env (msg.text.getD "") msg.sender with
    | none =>
      simp only [Enhanced.handle_new_message, Enhanced.process_urls_in_message,
        Enhanced.save_publications, hacc, if_true, hurls, hsave, han,
        List.map_cons, List.map_nil, Bool.false_eq_true, if_false,
        Enhanced.load_existing_publications]
      simp [Enhanced.load_existing_publications]
    | some a =>
      simp only [Enhanced.handle_new_message, Enhanced.process_urls_in_message,
        Enhanced.save_publications, hacc, if_true, hurls, hsave, han,
        List.map_cons, List.map_nil, Bool.false_eq_true, if_false,
        Enhanced.load_existing_publications]
      simp [Enhanced.load_existing_publications]
  · intro envA u e2 hf
    unfold Agent.extract_article_data
    rw [hf]

/-- Witness for C6 amended: a timed-out fetch of http://x inside an
accepted message leaves the error placeholder in the store. -/
theorem error_placeholder_record_appended_witness :
    should_process_message (TrackerFile.content [])
      (ensureUtc { wall := 3, tz := some 0 })
      (PyChatId.str (Enhanced.tracking_chat_id_of "t")) = true ∧
    envTimeout.urls (some "see http://x" |>.getD "") = ["http://x"] ∧
    envTimeout.fetch "http://x" = .exn "timeout" ∧
    envTimeout.pubSaveFails = false ∧
    Enhanced.PubEntry.article
        { Enhanced.extract_article_content envTimeout "http://x" with sender := some "z" }
      ∈ Enhanced.load_existing_publications
          (Enhanced.handle_new_message envTimeout "t"
            { sender := "z", text := some "see http://x", date := { wall := 3, tz := some 0 } }
            { pubFile := .content [], trackerFile := .content [] }).pubFile :=
  ⟨by decide, by decide, rfl, rfl,
    (error_placeholder_record_appended envTimeout "t"
      { sender := "z", text := some "see http://x", date := { wall := 3, tz := some 0 } }
      { pubFile := .content [], trackerFile := .content [] } "http://x" "timeout"
      (by decide) (by decide) rfl rfl).2.1⟩

set_option maxRecDepth 8192 in
/-- C8 counterexample: the enhanced resolver applies no truncation: a
successfully fetched page whose extracted title has 201 characters yields
an ArticleRecord whose title keeps all 201 characters. -/
theorem enhanced_title_unbounded_cex :
    (Enhanced.extract_article_content envLong "http://x").extraction_method
      = "web_scraping" ∧
    200 < (Enhanced.extract_article_content envLong "http://x").title.length := by
  decide

/-- C8 amended: only the basic agent resolver bounds its fields: without
LLM enhancement, every successfully fetched and parsed URL yields a record
with title at most 200 characters and summary at most 500; the enhanced
agent resolver does not truncate. -/
theorem agent_basic_truncation (env : Agent.Env) (url : String) (pm : Agent.PageMeta)
    (hfetch : env.fetch url = .ok pm) (hllm : env.llmAvailable = false) :
    (Agent.extract_article_data env url).title.length ≤ 200 ∧
    (Agent.extract_article_data env url).summary.length ≤ 500 := by
  unfold Agent.extract_article_data
  rw [hfetch, hllm]
  simp only [Bool.false_eq_true, if_false]
  constructor
  · show (pyTake (pm.title.getD "Article Title Not Found") 200).length ≤ 200
    exact pyTake_length_le _ _
  · show (pyTake (pm.summary.getD "No summary available") 500).length ≤ 500
    exact pyTake_length_le _ _

/-- Witness for C8 amended at an empty successful cascade. -/
theorem agent_basic_truncation_witness :
    envAgent.fetch "http://a" = Agent.FetchResult.ok {} ∧
    envAgent.llmAvailable = false ∧
    (Agent.extract_article_data envAgent "http://a").title.length ≤ 200 :=
  ⟨rfl, rfl, (agent_basic_truncation envAgent "http://a" {} rfl rfl).1⟩

end TelegramAgent
